import Mathlib

/-!
Verification development for the ashley-furniture-service sync core
(package `db`): pagination termination, page retry with exponential
backoff, per-kind transforms, and the bbolt-backed key-value persistence
layer, together with the read-side HTTP handler.

Go `string` is modelled as `String`, `int` as `Int`, `float64` as `Rat`
(the numeric fields settled here are only copied or zero-filled, never
subjected to float arithmetic), errors as `Except String`, and the
standard-library pieces that live outside this repository
(`strconv.ParseFloat`, `encoding/json` marshalling) as explicit function
parameters.
-/

namespace AshleyDB

/-- ASCII lowercase for one character, modelling the effect of Go's
`strings.ToLower` on the link-relation names that occur here. -/
def charLower (c : Char) : Char :=
  if 65 ≤ c.toNat ∧ c.toNat ≤ 90 then Char.ofNat (c.toNat + 32) else c

/-- `strings.ToLower` restricted to ASCII, applied characterwise. -/
def strLower (s : String) : String := ⟨s.data.map charLower⟩

/-- `Link` from the source: one pagination navigation link `{rel, href}`.
A JSON-absent `href` decodes to the Go zero value `""`. -/
structure Link where
  rel : String
  href : String
deriving DecidableEq, Repr

/-- `Metadata` from the source. -/
structure Metadata where
  totalRecords : Int := 0
  currentPageRecords : Int := 0
deriving DecidableEq, Repr

/-- `GenericAPIResponse[T]` from the source: one page of the upstream
listing. -/
structure GenericAPIResponse (T : Type) where
  links : List Link
  metadata : Metadata
  entities : List T
deriving DecidableEq, Repr

/-- The accumulator loop inside `isLastPage`: a left fold over the links,
where a later `self`/`last` relation overwrites an earlier one, exactly as
the Go `for`/`switch` assigns `selfHref`/`lastHref`. -/
def linkScan (links : List Link) : String × String :=
  links.foldl (fun acc link =>
    if strLower link.rel = "self" then (link.href, acc.2)
    else if strLower link.rel = "last" then (acc.1, link.href)
    else acc) ("", "")

/-- `isLastPage` from the source: the sync loop stops when the
(case-insensitive) `self` and `last` hrefs are both non-empty and equal. -/
def isLastPage (links : List Link) : Bool :=
  let hrefs := linkScan links
  hrefs.1 != "" && hrefs.2 != "" && hrefs.1 == hrefs.2

/-- Specification-side helper: the `href` of the last link in the list
whose relation lowercases to `rel0`, if any. -/
def lastHrefWithRel (rel0 : String) : List Link → Option String
  | [] => none
  | l :: ls =>
    match lastHrefWithRel rel0 ls with
    | some h => some h
    | none => if strLower l.rel = rel0 then some l.href else none

/-- The fold inside `isLastPage`, started from an arbitrary accumulator,
computes the last `self`/`last` hrefs, defaulting to the accumulator. -/
theorem linkScan_foldl_eq (links : List Link) : ∀ acc : String × String,
    links.foldl (fun acc link =>
      if strLower link.rel = "self" then (link.href, acc.2)
      else if strLower link.rel = "last" then (acc.1, link.href)
      else acc) acc =
    ((lastHrefWithRel "self" links).getD acc.1,
     (lastHrefWithRel "last" links).getD acc.2) := by
  induction links with
  | nil => intro acc; simp [lastHrefWithRel]
  | cons l ls ih =>
    intro acc
    simp only [List.foldl_cons, lastHrefWithRel]
    by_cases hs : strLower l.rel = "self"
    · have hl : ¬ strLower l.rel = "last" := by
        rw [hs]; intro h; exact absurd h (by decide)
      rw [ih]
      simp [hs, hl]
      cases lastHrefWithRel "self" ls <;> cases lastHrefWithRel "last" ls <;> simp
    · by_cases hl : strLower l.rel = "last"
      · rw [ih]
        simp [hs, hl]
        cases lastHrefWithRel "self" ls <;> cases lastHrefWithRel "last" ls <;> simp
      · rw [ih]
        simp [hs, hl]
        cases lastHrefWithRel "self" ls <;> cases lastHrefWithRel "last" ls <;> simp

/-- `linkScan` returns exactly the last `self` href and last `last` href,
each defaulting to `""` when no link carries that relation. -/
theorem linkScan_eq (links : List Link) :
    linkScan links =
      ((lastHrefWithRel "self" links).getD "",
       (lastHrefWithRel "last" links).getD "") :=
  linkScan_foldl_eq links ("", "")

/-- If `lastHrefWithRel` produces a value, some link in the list carries
that relation and that href. -/
theorem lastHrefWithRel_mem {rel0 : String} {links : List Link} {h : String}
    (hh : lastHrefWithRel rel0 links = some h) :
    ∃ l ∈ links, strLower l.rel = rel0 ∧ l.href = h := by
  induction links with
  | nil => simp [lastHrefWithRel] at hh
  | cons l ls ih =>
    simp only [lastHrefWithRel] at hh
    cases hrec : lastHrefWithRel rel0 ls with
    | some h' =>
      rw [hrec] at hh
      obtain ⟨l', hl', hr', hh'⟩ := ih (hrec.trans (by simpa using hh))
      exact ⟨l', List.mem_cons_of_mem _ hl', hr', hh'⟩
    | none =>
      rw [hrec] at hh
      by_cases hrel : strLower l.rel = rel0
      · simp [hrel] at hh
        exact ⟨l, List.mem_cons_self _ _, hrel, hh⟩
      · simp [hrel] at hh

/-- If `l` is the unique link of the list whose relation lowercases to
`rel0`, `lastHrefWithRel` finds its href. -/
theorem lastHrefWithRel_unique {rel0 : String} {links : List Link} {l : Link}
    (hmem : l ∈ links) (hrel : strLower l.rel = rel0)
    (huniq : ∀ l' ∈ links, strLower l'.rel = rel0 → l' = l) :
    lastHrefWithRel rel0 links = some l.href := by
  induction links with
  | nil => simp at hmem
  | cons x xs ih =>
    simp only [lastHrefWithRel]
    rcases List.mem_cons.mp hmem with hx | hxs
    · subst hx
      cases hrec : lastHrefWithRel rel0 xs with
      | some h' =>
        obtain ⟨l', hl', hr', hh'⟩ := lastHrefWithRel_mem hrec
        have := huniq l' (List.mem_cons_of_mem _ hl') hr'
        subst this
        simp [hh']
      | none => simp [hrel]
    · have := ih hxs (fun l' hl' hr' => huniq l' (List.mem_cons_of_mem _ hl') hr')
      rw [this]

/-- Result of one `fetchPageWithRetry` call: the returned value or error,
the number of `FetchPage` attempts performed, and the list of backoff
delays (in seconds) slept between attempts, in order. -/
structure RetryOutcome (R : Type) where
  result : Except String R
  attemptsMade : Nat
  delays : List Nat
deriving Repr

/-- Go's `%v` rendering of a possibly-nil error. -/
def errString : Option String → String
  | some e => e
  | none => "<nil>"

/-- The `for attempt := 1; attempt <= maxRetries; attempt++` loop of
`fetchPageWithRetry`, iterating over the list of remaining attempt
numbers (`[1, …, maxRetries]` at the call site). `fetch n` is the outcome
of the n-th `fetcher.FetchPage` call. On a failure the error becomes the
recorded `lastErr`; while later attempts remain (`attempt < maxRetries`
in Go, i.e. the remaining list is non-empty) the code sleeps
`2^attempt` seconds (Go: `time.Duration(1<<uint(attempt)) * time.Second`)
and retries; once attempts are exhausted it returns the wrapped
exhaustion error naming `maxRetries` and the last error. -/
def retryGoList (fetch : Nat → Except String R) (maxRetries : Nat) :
    List Nat → Option String → RetryOutcome R
  | [], lastErr =>
    ⟨.error ("failed after " ++ toString maxRetries ++ " attempts: " ++ errString lastErr),
     maxRetries, []⟩
  | attempt :: rest, _ =>
    match fetch attempt with
    | .ok r => ⟨.ok r, attempt, []⟩
    | .error e =>
      if rest.isEmpty then
        ⟨.error ("failed after " ++ toString maxRetries ++ " attempts: " ++ e),
         attempt, []⟩
      else
        let out := retryGoList fetch maxRetries rest (some e)
        ⟨out.result, out.attemptsMade, (2 ^ attempt) :: out.delays⟩

/-- `fetchPageWithRetry` from the source: attempts run from 1 to
`maxRetries` with no error recorded before the first one. -/
def fetchPageWithRetry (fetch : Nat → Except String R) (maxRetries : Nat) :
    RetryOutcome R :=
  retryGoList fetch maxRetries (List.range' 1 maxRetries) none

/-- One bbolt bucket: an association list from key (SKU) to the stored
JSON-serialized bytes, with at most one entry per key. -/
def Bucket : Type := List (String × String)

/-- `bucket.Get`: the value stored under `k`, if any. -/
def bucketGet : Bucket → String → Option String
  | [], _ => none
  | (k', v) :: rest, k => if k' = k then some v else bucketGet rest k

/-- Upsert into the association list: replace the entry for `k` in place,
or append a fresh entry. -/
def bucketInsert : Bucket → String → String → Bucket
  | [], k, v => [(k, v)]
  | (k', v') :: rest, k, v =>
    if k' = k then (k, v) :: rest else (k', v') :: bucketInsert rest k v

/-- `bucket.Put`: bbolt rejects an empty key (`ErrKeyRequired`);
otherwise the write is an upsert keyed by `k`. -/
def bucketPut (b : Bucket) (k v : String) : Except String Bucket :=
  if k = "" then .error "key required" else .ok (bucketInsert b k v)

/-- The whole bbolt database: bucket contents by bucket name.
`CreateBucketIfNotExists` (`initBucket`) is the identity here since every
name already denotes a (possibly empty) bucket. -/
def Store : Type := String → Bucket

/-- Replace one named bucket's contents. -/
def storeSet (st : Store) (name : String) (b : Bucket) : Store :=
  fun n => if n = name then b else st n

/-- The body of the `db.Update` closure in `saveEntitiesToDatabase`:
iterate the page's entities, transform, marshal, `Put` keyed by the wire
entity's SKU; the first failure aborts with the wrapped error. -/
def saveEntitiesLoop (getSKU : T → String) (transformer : T → E)
    (marshal : E → Except String String) :
    List T → Bucket → Except String Bucket
  | [], b => .ok b
  | e :: rest, b =>
    match marshal (transformer e) with
    | .error err => .error ("error marshaling entity " ++ getSKU e ++ ": " ++ err)
    | .ok data =>
      match bucketPut b (getSKU e) data with
      | .error err => .error ("error saving entity " ++ getSKU e ++ ": " ++ err)
      | .ok b2 => saveEntitiesLoop getSKU transformer marshal rest b2

/-- `saveEntitiesToDatabase` from the source: the loop runs inside one
`db.Update` transaction, so an error from the closure rolls the store
back to its prior state, while success commits the new bucket. -/
def saveEntitiesToDatabase (getSKU : T → String) (transformer : T → E)
    (marshal : E → Except String String) (st : Store) (bucketName : String)
    (entities : List T) : Except String Unit × Store :=
  match saveEntitiesLoop getSKU transformer marshal entities (st bucketName) with
  | .ok b2 => (.ok (), storeSet st bucketName b2)
  | .error e => (.error e, st)

/-- `GetEntity` from the source: point lookup in the named bucket;
a missing key is `entity not found`, otherwise the stored bytes are
JSON-unmarshalled (`unmarshal` models `json.Unmarshal` for the entity
type). -/
def GetEntity (unmarshal : String → Except String E) (st : Store)
    (bucketName sku : String) : Except String E :=
  match bucketGet (st bucketName) sku with
  | none => .error ("entity not found for SKU " ++ sku)
  | some data => unmarshal data

/-- The page loop of `FetchAllEntities`, with explicit fuel standing for
the otherwise-unbounded `for` loop (`none` = the loop has not terminated
within `fuel` iterations). `attempts page n` is the outcome of the n-th
`FetchPage` attempt for `page`; each page is fetched through
`fetchPageWithRetry` with the source's literal `maxRetries = 3`, its
entities are saved in one transaction, the running total accumulates, and
the loop stops exactly when `isLastPage` holds for the page's links.
On success it returns the final store, the total entity count, and the
list of page numbers fetched, in order. -/
def fetchAllLoop (getSKU : T → String) (transformer : T → E)
    (marshal : E → Except String String)
    (attempts : Nat → Nat → Except String (GenericAPIResponse T))
    (bucketName : String) :
    Nat → Store → Nat → Nat → Option (Except String (Store × Nat × List Nat))
  | 0, _, _, _ => none
  | fuel + 1, st, page, total =>
    match (fetchPageWithRetry (attempts page) 3).result with
    | .error e =>
      some (.error ("error fetching page " ++ toString page ++ " after retries: " ++ e))
    | .ok response =>
      match saveEntitiesToDatabase getSKU transformer marshal st bucketName
          response.entities with
      | (.error e, _) => some (.error ("error saving to database: " ++ e))
      | (.ok _, st2) =>
        let total2 := total + response.entities.length
        if isLastPage response.links then
          some (.ok (st2, total2, [page]))
        else
          (fetchAllLoop getSKU transformer marshal attempts bucketName
              fuel st2 (page + 1) total2).map
            (fun r => r.map (fun x => (x.1, x.2.1, page :: x.2.2)))

/-- `FetchAllEntities` from the source: the loop starts at page 1 with a
zero running total. -/
def FetchAllEntities (getSKU : T → String) (transformer : T → E)
    (marshal : E → Except String String)
    (attempts : Nat → Nat → Except String (GenericAPIResponse T))
    (bucketName : String) (fuel : Nat) (st : Store) :
    Option (Except String (Store × Nat × List Nat)) :=
  fetchAllLoop getSKU transformer marshal attempts bucketName fuel st 1 0

/-- The list of page numbers a terminated, successful sync fetched, if
any. -/
def syncPages : Option (Except String (Store × Nat × List Nat)) → Option (List Nat)
  | some (.ok (_, _, pages)) => some pages
  | _ => none

/-- `Product` from the source: the catalog wire entity. Go `float64`
fields are modelled as `Rat`; they are only copied, never computed with. -/
structure Product where
  ConsumerDescription : String := ""
  Sku : String := ""
  ItemSalesCategoryCodeKey : String := ""
  SeriesId : String := ""
  ChairQtyPerCarton : Int := 0
  ItemsPerCase : Int := 0
  Status : String := ""
  UnitHeightMm : Rat := 0
  UnitWidthMm : Rat := 0
  UnitDepthMm : Rat := 0
  ItemWeightKg : Rat := 0
deriving DecidableEq, Repr

/-- `ProductRequestData` from the source: the catalog storage entity.
Field defaults are the Go zero values, so a Lean record literal omitting a
field means exactly what the Go struct literal omitting it means. -/
structure ProductRequestData where
  ConsumerDescription : String := ""
  Sku : String := ""
  ItemSalesCategoryCodeKey : String := ""
  ItemSeries : String := ""
  SeriesId : String := ""
  Price : Rat := 0
  SellPrice : Rat := 0
  TotalNetPrice : Rat := 0
  Supplier : String := ""
  ChairQtyPerCarton : Int := 0
  ItemsPerCase : Int := 0
  Status : String := ""
  UnitHeightMm : Rat := 0
  UnitWidthMm : Rat := 0
  UnitDepthMm : Rat := 0
  ItemWeightKg : Rat := 0
deriving DecidableEq, Repr

/-- `Price` from the source: the pricing wire entity; every numeric field
arrives as a string. -/
structure Price where
  Description : String := ""
  Sku : String := ""
  BasePrice : String := ""
  SellPrice : String := ""
  Surcharge : String := ""
  FobPoint : String := ""
  Discount : String := ""
  DfiDiscount : String := ""
  NetPriceBeforeFreight : String := ""
  Freight : String := ""
  ExpressFreight : String := ""
  TotalNetPrice : String := ""
  ContainerPrice : String := ""
deriving DecidableEq, Repr

/-- `PriceRequestData` from the source: the pricing storage entity. -/
structure PriceRequestData where
  Description : String := ""
  Sku : String := ""
  BasePrice : Rat := 0
  SellPrice : Rat := 0
  Surcharge : Rat := 0
  FobPoint : String := ""
  Discount : Rat := 0
  DfiDiscount : Rat := 0
  NetPriceBeforeFreight : Rat := 0
  Freight : Rat := 0
  ExpressFreight : Rat := 0
  TotalNetPrice : Rat := 0
  ContainerPrice : Rat := 0
deriving DecidableEq, Repr

/-- `ProductResponseData` from the source: the read-side HTTP response
shape with renamed/localized fields. -/
structure ProductResponseData where
  Nombre : String := ""
  Clave : String := ""
  Categoria : String := ""
  Modelo : String := ""
  Costo : Rat := 0
  Costo2 : Rat := 0
  Proveedor : String := ""
  CantidadSillas : Int := 0
  CantidadPorPaquete : Int := 0
  Descontinuado : String := ""
  Alto : Rat := 0
  Largo : Rat := 0
  Ancho : Rat := 0
  Peso : Rat := 0
deriving DecidableEq, Repr

/-- `parseFloat` from the source: the empty string short-circuits to
`(0.0, nil)`; otherwise the value and error of `strconv.ParseFloat` are
returned. `strconvParseFloat` models that standard-library call: `some v`
on a well-formed numeric string, `none` (syntax error, value 0) on a
malformed one. The pair is (value, error). -/
def parseFloat (strconvParseFloat : String → Option Rat) (s : String) :
    Rat × Option String :=
  if s = "" then (0, none)
  else
    match strconvParseFloat s with
    | some v => (v, none)
    | none => (0, some ("invalid syntax: " ++ s))

/-- `ProductFetcher.Transform` from the source: copies the shared fields,
injects the constant supplier, and leaves the remaining storage fields at
their zero values (the Go struct literal omits them). -/
def ProductFetcher.Transform (entity : Product) : ProductRequestData :=
  { ConsumerDescription := entity.ConsumerDescription
    Sku := entity.Sku
    ItemSalesCategoryCodeKey := entity.ItemSalesCategoryCodeKey
    SeriesId := entity.SeriesId
    Supplier := "Ashley Furniture"
    ChairQtyPerCarton := entity.ChairQtyPerCarton
    ItemsPerCase := entity.ItemsPerCase
    Status := entity.Status
    UnitHeightMm := entity.UnitHeightMm
    UnitWidthMm := entity.UnitWidthMm
    UnitDepthMm := entity.UnitDepthMm
    ItemWeightKg := entity.ItemWeightKg }

/-- `PriceFetcher.Transform` from the source: copies the string fields,
then fills each numeric field with the value component of `parseFloat`,
discarding the error component (`result.X, _ = parseFloat(...)`). -/
def PriceFetcher.Transform (strconvParseFloat : String → Option Rat)
    (entity : Price) : PriceRequestData :=
  { Description := entity.Description
    Sku := entity.Sku
    FobPoint := entity.FobPoint
    BasePrice := (parseFloat strconvParseFloat entity.BasePrice).1
    SellPrice := (parseFloat strconvParseFloat entity.SellPrice).1
    Surcharge := (parseFloat strconvParseFloat entity.Surcharge).1
    Discount := (parseFloat strconvParseFloat entity.Discount).1
    DfiDiscount := (parseFloat strconvParseFloat entity.DfiDiscount).1
    NetPriceBeforeFreight := (parseFloat strconvParseFloat entity.NetPriceBeforeFreight).1
    Freight := (parseFloat strconvParseFloat entity.Freight).1
    ExpressFreight := (parseFloat strconvParseFloat entity.ExpressFreight).1
    TotalNetPrice := (parseFloat strconvParseFloat entity.TotalNetPrice).1
    ContainerPrice := (parseFloat strconvParseFloat entity.ContainerPrice).1 }

/-- Outcome of `makeHTTPRequest` once a response with a status code has
arrived, carrying the source's retryable/non-retryable classification. -/
inductive HTTPOutcome (T : Type) where
  | ok (page : T)
  | retryableErr (msg : String)
  | nonRetryableErr (msg : String)
deriving DecidableEq, Repr

/-- Whether an `HTTPOutcome` is a successfully decoded page. -/
def HTTPOutcome.isOk : HTTPOutcome T → Bool
  | .ok _ => true
  | _ => false

/-- Whether an `HTTPOutcome` is a retryable-classified error. -/
def HTTPOutcome.isRetryableErr : HTTPOutcome T → Bool
  | .retryableErr _ => true
  | _ => false

/-- Whether an `HTTPOutcome` is a non-retryable-classified error. -/
def HTTPOutcome.isNonRetryableErr : HTTPOutcome T → Bool
  | .nonRetryableErr _ => true
  | _ => false

/-- `retryableCodes` from `isRetryableStatusCode`: 408, 429, 500, 502,
503, 504. -/
def retryableCodes : List Nat := [408, 429, 500, 502, 503, 504]

/-- `isRetryableStatusCode` from the source: linear scan of the list. -/
def isRetryableStatusCode (statusCode : Nat) : Bool :=
  retryableCodes.any (fun code => statusCode == code)

/-- The status-code and body handling of `makeHTTPRequest` after
`client.Do` has returned a response: retryable statuses first, then any
status other than 200 is non-retryable, then the body is JSON-decoded
(`decode` models `json.Unmarshal` into the page shape; its failure is a
non-retryable error). -/
def handleHTTPResponse (decode : String → Except String T)
    (statusCode : Nat) (body : String) : HTTPOutcome T :=
  if isRetryableStatusCode statusCode then
    .retryableErr ("retryable HTTP error - status " ++ toString statusCode ++ ": " ++ body)
  else if statusCode ≠ 200 then
    .nonRetryableErr ("non-retryable HTTP error - status " ++ toString statusCode ++ ": " ++ body)
  else
    match decode body with
    | .ok result => .ok result
    | .error e => .nonRetryableErr ("error unmarshaling JSON: " ++ e)

/-- Body written by the read-side handler: `http.Error` writes plain
text; `json.NewEncoder(w).Encode(response)` writes `null` when the Go
slice is nil (no product was appended) and a JSON array otherwise. -/
inductive ResponseBody where
  | plainText (s : String)
  | jsonNull
  | jsonArray (items : List ProductResponseData)
deriving DecidableEq, Repr

/-- Status code plus body as written to the `http.ResponseWriter`. -/
structure HTTPResult where
  status : Nat
  body : ResponseBody
deriving DecidableEq, Repr

/-- The Go map `priceMap[sku]` built by iterating `prices` in order, a
later entry overwriting an earlier one: lookup returns the last matching
price. -/
def priceMapLookup (prices : List PriceRequestData) (sku : String) :
    Option PriceRequestData :=
  prices.reverse.find? (fun p => p.Sku == sku)

/-- The per-product body of the response loop in `GetAllProductsHandler`,
including the conditional price enrichment. -/
def productToResponse (prices : List PriceRequestData)
    (product : ProductRequestData) : ProductResponseData :=
  let base : ProductResponseData :=
    { Nombre := product.ConsumerDescription
      Clave := product.Sku
      Categoria := product.ItemSalesCategoryCodeKey
      Modelo := product.ItemSeries ++ " " ++ product.SeriesId
      Proveedor := product.Supplier
      CantidadSillas := product.ChairQtyPerCarton
      CantidadPorPaquete := product.ItemsPerCase
      Descontinuado := product.Status
      Alto := product.UnitHeightMm
      Largo := product.UnitWidthMm
      Ancho := product.UnitDepthMm
      Peso := product.ItemWeightKg }
  match priceMapLookup prices product.Sku with
  | some price => { base with Costo := price.SellPrice, Costo2 := price.TotalNetPrice }
  | none => base

/-- `GetAllProductsHandler` from the source, as a function of the two
collection reads (`GetAllProducts`, `GetAllPrices`): a failed read
short-circuits to a 500 with a plain-text body; otherwise the joined
response slice is built (starting from Go's nil slice) and encoded with
status 200. -/
def GetAllProductsHandler
    (productsRead : Except String (List ProductRequestData))
    (pricesRead : Except String (List PriceRequestData)) : HTTPResult :=
  match productsRead with
  | .error e => ⟨500, .plainText ("Error fetching products: " ++ e)⟩
  | .ok products =>
    match pricesRead with
    | .error e => ⟨500, .plainText ("Error fetching prices: " ++ e)⟩
    | .ok prices =>
      let response := products.map (productToResponse prices)
      ⟨200, if response.isEmpty then .jsonNull else .jsonArray response⟩

/-- Whether an `Except` value is a success. -/
def excIsOk : Except ε α → Bool
  | .ok _ => true
  | .error _ => false

/-- The success value of an `Except`, if any. -/
def excToOption : Except ε α → Option α
  | .ok a => some a
  | .error _ => none

/-- Specification-side helper: the last entity of the batch whose SKU is
`sku`, i.e. the one whose write wins inside one `saveEntitiesToDatabase`
transaction. -/
def lastWithSKU (getSKU : T → String) : List T → String → Option T
  | [], _ => none
  | e :: rest, sku =>
    match lastWithSKU getSKU rest sku with
    | some e' => some e'
    | none => if getSKU e = sku then some e else none

section WitnessFixtures

/-- Concrete model of `strconv.ParseFloat` for witnesses: accepts exactly
the string "42". -/
def pfW : String → Option Rat := fun s => if s = "42" then some 42 else none

/-- Concrete pricing wire record for witnesses: an empty field, a
well-formed field and a malformed field. -/
def priceW : Price := { Sku := "S1", BasePrice := "", SellPrice := "42", Surcharge := "garbage" }

/-- A page fetch that fails on every attempt. -/
def fetchFailW : Nat → Except String (GenericAPIResponse Product) :=
  fun n => .error ("boom " ++ toString n)

/-- An empty successful page. -/
def respW : GenericAPIResponse Product := ⟨[], {}, []⟩

/-- A page fetch that fails on attempts 1 and 2 and succeeds on 3. -/
def fetchSeqW : Nat → Except String (GenericAPIResponse Product) :=
  fun n => if n < 3 then .error ("boom " ++ toString n) else .ok respW

/-- A JSON decoder that always fails, for status-classification
witnesses. -/
def decodeW : String → Except String (GenericAPIResponse Product) :=
  fun _ => .error "no decode"

/-- A two-page synthetic source over string entities: the `self` and
`last` hrefs coincide exactly on page 2. -/
def pagesW : Nat → GenericAPIResponse String :=
  fun k =>
    if k = 2 then ⟨[⟨"self", "p2"⟩, ⟨"last", "p2"⟩], {}, ["b"]⟩
    else ⟨[⟨"self", "p1"⟩, ⟨"last", "p2"⟩], {}, ["a"]⟩

/-- Fetch attempts for `pagesW`: every first attempt succeeds. -/
def attemptsW : Nat → Nat → Except String (GenericAPIResponse String) :=
  fun p _ => .ok (pagesW p)

/-- The empty store. -/
def stW : Store := fun _ => []

/-- JSON marshalling of a string entity for witnesses: the identity,
always succeeding. -/
def marshalW : String → Except String String := fun s => .ok s

/-- JSON unmarshalling matching `marshalW`. -/
def unmarshalW : String → Except String String := fun s => .ok s

/-- Keyed string entities (SKU, payload) for the upsert witnesses. -/
def marshalPairW : String × String → Except String String := fun p => .ok p.2

/-- A second always-failing page fetch whose error text differs from
`fetchFailW`, for the uniform-retry witness. -/
def fetchFail2W : Nat → Except String (GenericAPIResponse Product) :=
  fun _ => .error "other"

end WitnessFixtures

/-- C9: `ProductFetcher.Transform` copies each shared field of the
catalog wire entity unchanged (consumer description, SKU, sales-category
key, series id, chair quantity, items per case, status and the four
dimension/weight fields), hard-codes the supplier to "Ashley Furniture",
and leaves every remaining storage field (`ItemSeries`, `Price`,
`SellPrice`, `TotalNetPrice`) at its zero value; being a total function
it has no failure case. -/
theorem c9_catalog_transform (entity : Product) :
    (ProductFetcher.Transform entity).ConsumerDescription = entity.ConsumerDescription ∧
    (ProductFetcher.Transform entity).Sku = entity.Sku ∧
    (ProductFetcher.Transform entity).ItemSalesCategoryCodeKey = entity.ItemSalesCategoryCodeKey ∧
    (ProductFetcher.Transform entity).SeriesId = entity.SeriesId ∧
    (ProductFetcher.Transform entity).ChairQtyPerCarton = entity.ChairQtyPerCarton ∧
    (ProductFetcher.Transform entity).ItemsPerCase = entity.ItemsPerCase ∧
    (ProductFetcher.Transform entity).Status = entity.Status ∧
    (ProductFetcher.Transform entity).UnitHeightMm = entity.UnitHeightMm ∧
    (ProductFetcher.Transform entity).UnitWidthMm = entity.UnitWidthMm ∧
    (ProductFetcher.Transform entity).UnitDepthMm = entity.UnitDepthMm ∧
    (ProductFetcher.Transform entity).ItemWeightKg = entity.ItemWeightKg ∧
    (ProductFetcher.Transform entity).Supplier = "Ashley Furniture" ∧
    (ProductFetcher.Transform entity).ItemSeries = "" ∧
    (ProductFetcher.Transform entity).Price = 0 ∧
    (ProductFetcher.Transform entity).SellPrice = 0 ∧
    (ProductFetcher.Transform entity).TotalNetPrice = 0 :=
  ⟨rfl, rfl, rfl, rfl, rfl, rfl, rfl, rfl, rfl, rfl, rfl, rfl, rfl, rfl, rfl, rfl⟩

/-- C4: in the pricing transform every numeric field is the value
component of `parseFloat` applied to the corresponding wire string, the
error component being discarded, and `parseFloat` maps the empty string
to `0.0` with no error, a well-formed numeric string to its parsed value
with no error, and a malformed non-empty string to `0.0` with a discarded
parse error; the transform is total, so it never aborts. -/
theorem c4_numeric_parse_policy (pf : String → Option Rat) (entity : Price) :
    ((PriceFetcher.Transform pf entity).BasePrice = (parseFloat pf entity.BasePrice).1 ∧
     (PriceFetcher.Transform pf entity).SellPrice = (parseFloat pf entity.SellPrice).1 ∧
     (PriceFetcher.Transform pf entity).Surcharge = (parseFloat pf entity.Surcharge).1 ∧
     (PriceFetcher.Transform pf entity).Discount = (parseFloat pf entity.Discount).1 ∧
     (PriceFetcher.Transform pf entity).DfiDiscount = (parseFloat pf entity.DfiDiscount).1 ∧
     (PriceFetcher.Transform pf entity).NetPriceBeforeFreight = (parseFloat pf entity.NetPriceBeforeFreight).1 ∧
     (PriceFetcher.Transform pf entity).Freight = (parseFloat pf entity.Freight).1 ∧
     (PriceFetcher.Transform pf entity).ExpressFreight = (parseFloat pf entity.ExpressFreight).1 ∧
     (PriceFetcher.Transform pf entity).TotalNetPrice = (parseFloat pf entity.TotalNetPrice).1 ∧
     (PriceFetcher.Transform pf entity).ContainerPrice = (parseFloat pf entity.ContainerPrice).1) ∧
    (∀ s : String,
      (s = "" → parseFloat pf s = (0, none)) ∧
      (∀ v : Rat, s ≠ "" → pf s = some v → parseFloat pf s = (v, none)) ∧
      (s ≠ "" → pf s = none →
        (parseFloat pf s).1 = 0 ∧ (parseFloat pf s).2.isSome = true)) := by
  refine ⟨⟨rfl, rfl, rfl, rfl, rfl, rfl, rfl, rfl, rfl, rfl⟩, ?_⟩
  intro s
  refine ⟨?_, ?_, ?_⟩
  · intro hs; simp [parseFloat, hs]
  · intro v hs hv; simp [parseFloat, hs, hv]
  · intro hs hv; simp [parseFloat, hs, hv]

/-- Witness for C4 at a concrete oracle and wire record: the empty
`BasePrice` parses to 0 with no error, the well-formed `SellPrice`
"12.5" parses to 25/2 with no error, and the malformed `Surcharge`
"garbage" parses to 0 with a discarded error. -/
theorem c4_numeric_parse_policy_witness :
    parseFloat pfW "" = (0, none) ∧
    parseFloat pfW "42" = (42, none) ∧
    (parseFloat pfW "garbage").1 = 0 ∧
    (parseFloat pfW "garbage").2.isSome = true ∧
    (PriceFetcher.Transform pfW priceW).BasePrice = (parseFloat pfW priceW.BasePrice).1 :=
  ⟨((c4_numeric_parse_policy pfW priceW).2 "").1 rfl,
   ((c4_numeric_parse_policy pfW priceW).2 "42").2.1 42 (by decide) (by decide),
   (((c4_numeric_parse_policy pfW priceW).2 "garbage").2.2 (by decide) (by decide)).1,
   (((c4_numeric_parse_policy pfW priceW).2 "garbage").2.2 (by decide) (by decide)).2,
   (c4_numeric_parse_policy pfW priceW).1.1⟩

/-- C10: after a response arrives, `makeHTTPRequest` returns a decoded
page only for status exactly 200 (and does so whenever the decode
succeeds); the statuses 408, 429, 500, 502, 503, 504 — precisely the
members of `retryableCodes` — yield a retryable error, and every other
status besides 200, including other 2xx codes, yields a non-retryable
error. -/
theorem c10_status_classification (decode : String → Except String T)
    (statusCode : Nat) (body : String) :
    ((handleHTTPResponse decode statusCode body).isOk = true → statusCode = 200) ∧
    (statusCode = 200 → ∀ r, decode body = .ok r →
      handleHTTPResponse decode statusCode body = .ok r) ∧
    (isRetryableStatusCode statusCode = true ↔
      statusCode ∈ ([408, 429, 500, 502, 503, 504] : List Nat)) ∧
    (statusCode ∈ retryableCodes →
      (handleHTTPResponse decode statusCode body).isRetryableErr = true) ∧
    (statusCode ∉ retryableCodes → statusCode ≠ 200 →
      (handleHTTPResponse decode statusCode body).isNonRetryableErr = true) := by
  have hmem : ∀ s : Nat, isRetryableStatusCode s = true ↔ s ∈ retryableCodes := by
    intro s
    simp [isRetryableStatusCode, retryableCodes, List.any_eq_true]
  refine ⟨?_, ?_, ?_, ?_, ?_⟩
  · intro hok
    by_cases hr : isRetryableStatusCode statusCode
    · simp [handleHTTPResponse, hr, HTTPOutcome.isOk] at hok
    · by_cases h200 : statusCode = 200
      · exact h200
      · simp [handleHTTPResponse, hr, h200, HTTPOutcome.isOk] at hok
  · intro h200 r hr
    subst h200
    have : isRetryableStatusCode 200 = false := by decide
    simp [handleHTTPResponse, this, hr]
  · simpa [retryableCodes] using hmem statusCode
  · intro hin
    have : isRetryableStatusCode statusCode = true := (hmem statusCode).mpr hin
    simp [handleHTTPResponse, this, HTTPOutcome.isRetryableErr]
  · intro hout h200
    have : isRetryableStatusCode statusCode = false := by
      rcases h : isRetryableStatusCode statusCode with _ | _
      · rfl
      · exact absurd ((hmem statusCode).mp h) hout
    simp [handleHTTPResponse, this, h200, HTTPOutcome.isNonRetryableErr]

/-- Witness for C10 at concrete statuses: 204 (a 2xx other than 200) is
classified non-retryable, 503 retryable, and a 200 with a successful
decode returns the page. -/
theorem c10_status_classification_witness :
    (handleHTTPResponse decodeW 204 "").isNonRetryableErr = true ∧
    (handleHTTPResponse decodeW 503 "").isRetryableErr = true ∧
    handleHTTPResponse (fun _ => .ok respW) 200 "" = .ok respW :=
  ⟨(c10_status_classification decodeW 204 "").2.2.2.2 (by decide) (by decide),
   (c10_status_classification decodeW 503 "").2.2.2.1 (by decide),
   (c10_status_classification (fun _ => .ok respW) 200 "").2.1 rfl respW rfl⟩

/-- Counterexample to C8 as stated: with both collection reads
succeeding and an empty products collection the handler does return 200,
but the encoded body is JSON `null` (Go encodes the nil slice
`var response []ProductResponseData` as `null`), not the empty JSON
array the claim asserts. -/
theorem c8_read_handler_counterexample :
    GetAllProductsHandler (.ok []) (.ok []) = ⟨200, .jsonNull⟩ ∧
    ResponseBody.jsonNull ≠ ResponseBody.jsonArray [] := by
  exact ⟨rfl, by decide⟩

/-- C8 as amended: `GetAllProductsHandler` returns HTTP 500 with a
plain-text error body if reading the products collection or the prices
collection fails; otherwise it returns HTTP 200, with a JSON array body
whenever the store holds at least one product entity, but with a JSON
`null` body (nil-slice encoding, not an empty array) when the store
holds no product entities. -/
theorem c8_read_handler_amended
    (productsRead : Except String (List ProductRequestData))
    (pricesRead : Except String (List PriceRequestData)) :
    (∀ e, productsRead = .error e →
      GetAllProductsHandler productsRead pricesRead =
        ⟨500, .plainText ("Error fetching products: " ++ e)⟩) ∧
    (∀ products e, productsRead = .ok products → pricesRead = .error e →
      GetAllProductsHandler productsRead pricesRead =
        ⟨500, .plainText ("Error fetching prices: " ++ e)⟩) ∧
    (∀ products prices, productsRead = .ok products → pricesRead = .ok prices →
      products ≠ [] →
      GetAllProductsHandler productsRead pricesRead =
        ⟨200, .jsonArray (products.map (productToResponse prices))⟩) ∧
    (∀ prices, productsRead = .ok [] → pricesRead = .ok prices →
      GetAllProductsHandler productsRead pricesRead = ⟨200, .jsonNull⟩) := by
  refine ⟨?_, ?_, ?_, ?_⟩
  · rintro e rfl
    rfl
  · rintro products e rfl rfl
    rfl
  · rintro products prices rfl rfl hne
    have : (products.map (productToResponse prices)).isEmpty = false := by
      cases products with
      | nil => exact absurd rfl hne
      | cons p ps => rfl
    simp [GetAllProductsHandler, this]
  · rintro prices rfl rfl
    rfl

/-- Witness for the amended C8: a failing products read yields a 500
plain-text response; one stored product yields a 200 JSON array; an
empty store yields a 200 JSON `null`. -/
theorem c8_read_handler_amended_witness :
    GetAllProductsHandler (.error "disk") (.ok []) =
      ⟨500, .plainText "Error fetching products: disk"⟩ ∧
    GetAllProductsHandler (.ok [{ Sku := "A" }]) (.ok []) =
      ⟨200, .jsonArray ([{ Sku := "A" }].map (productToResponse []))⟩ ∧
    GetAllProductsHandler (.ok []) (.ok []) = ⟨200, .jsonNull⟩ :=
  ⟨(c8_read_handler_amended (.error "disk") (.ok [])).1 "disk" rfl,
   (c8_read_handler_amended (.ok [{ Sku := "A" }]) (.ok [])).2.2.1
     [{ Sku := "A" }] [] rfl rfl (by decide),
   (c8_read_handler_amended (.ok []) (.ok [])).2.2.2 [] rfl rfl⟩

/-- One step of the retry loop: the attempt succeeds. -/
theorem retryGoList_cons_ok {fetch : Nat → Except String R} {m attempt : Nat}
    {rest : List Nat} {lastErr : Option String} {r : R}
    (hf : fetch attempt = .ok r) :
    retryGoList fetch m (attempt :: rest) lastErr = ⟨.ok r, attempt, []⟩ := by
  simp [retryGoList, hf]

/-- One step of the retry loop: the final attempt fails, exhausting the
retries with the wrapped error. -/
theorem retryGoList_cons_error_last {fetch : Nat → Except String R} {m attempt : Nat}
    {lastErr : Option String} {e : String}
    (hf : fetch attempt = .error e) :
    retryGoList fetch m [attempt] lastErr =
      ⟨.error ("failed after " ++ toString m ++ " attempts: " ++ e), attempt, []⟩ := by
  simp [retryGoList, hf]

/-- One step of the retry loop: a non-final attempt fails, so the code
sleeps `2^attempt` seconds and continues with the recorded error. -/
theorem retryGoList_cons_error {fetch : Nat → Except String R} {m attempt : Nat}
    {rest : List Nat} {lastErr : Option String} {e : String}
    (hf : fetch attempt = .error e) (hne : rest.isEmpty = false) :
    retryGoList fetch m (attempt :: rest) lastErr =
      ⟨(retryGoList fetch m rest (some e)).result,
       (retryGoList fetch m rest (some e)).attemptsMade,
       2 ^ attempt :: (retryGoList fetch m rest (some e)).delays⟩ := by
  simp [retryGoList, hf, hne]

/-- The delays recorded by the retry loop over attempts `[k, …, k+n-1]`:
the loop's exit attempt is at least `k`, and one delay of `2^j` seconds
was slept for each attempt `j` strictly before the exit attempt. -/
theorem retryGoList_delays (fetch : Nat → Except String R) (m : Nat) :
    ∀ n k lastErr, k + n = m + 1 → 1 ≤ n →
      k ≤ (retryGoList fetch m (List.range' k n) lastErr).attemptsMade ∧
      (retryGoList fetch m (List.range' k n) lastErr).delays =
        (List.range' k ((retryGoList fetch m (List.range' k n) lastErr).attemptsMade - k)).map
          (fun j => 2 ^ j) := by
  intro n
  induction n with
  | zero => intro k lastErr _ h1; exact absurd h1 (by decide)
  | succ n ih =>
    intro k lastErr hkn _
    rw [List.range'_succ]
    cases hf : fetch k with
    | ok r =>
      rw [retryGoList_cons_ok hf]
      simp
    | error e =>
      cases n with
      | zero =>
        have : List.range' (k + 1) 0 = [] := rfl
        rw [this, retryGoList_cons_error_last hf]
        simp
      | succ n' =>
        have hne : (List.range' (k + 1) (n' + 1)).isEmpty = false := by
          rw [List.range'_succ]
          rfl
        have hrec := ih (k + 1) (some e) (by omega) (by omega)
        rw [retryGoList_cons_error hf hne]
        refine ⟨by simp; omega, ?_⟩
        simp only
        rw [hrec.2]
        have hk : (retryGoList fetch m (List.range' (k + 1) (n' + 1)) (some e)).attemptsMade - k =
            ((retryGoList fetch m (List.range' (k + 1) (n' + 1)) (some e)).attemptsMade - (k + 1)) + 1 := by
          omega
        rw [hk, List.range'_succ]
        rfl

/-- If the attempt `a` succeeds and every earlier attempt in the window
`[k, …, k+n-1]` fails, the retry loop returns the successful response
and exits at attempt `a`. -/
theorem retryGoList_success (fetch : Nat → Except String R) (m a : Nat) (r : R)
    (ha : fetch a = .ok r) :
    ∀ n k lastErr, k ≤ a → a < k + n →
      (∀ j, k ≤ j → j < a → ∃ e, fetch j = .error e) →
      (retryGoList fetch m (List.range' k n) lastErr).result = .ok r ∧
      (retryGoList fetch m (List.range' k n) lastErr).attemptsMade = a := by
  intro n
  induction n with
  | zero => intro k lastErr hka han _; omega
  | succ n ih =>
    intro k lastErr hka han hfail
    rw [List.range'_succ]
    by_cases hk : k = a
    · subst hk
      rw [retryGoList_cons_ok ha]
      exact ⟨rfl, rfl⟩
    · have hklt : k < a := by omega
      obtain ⟨e, he⟩ := hfail k le_rfl hklt
      cases n with
      | zero => omega
      | succ n' =>
        have hne : (List.range' (k + 1) (n' + 1)).isEmpty = false := by
          rw [List.range'_succ]; rfl
        rw [retryGoList_cons_error he hne]
        exact ih (k + 1) (some e) (by omega) (by omega)
          (fun j hj1 hj2 => hfail j (by omega) hj2)

/-- If every attempt from `k` through `m` fails, the retry loop over
`[k, …, m]` performs them all and returns the exhaustion error wrapping
the last attempt's error. -/
theorem retryGoList_allfail (fetch : Nat → Except String R) (m : Nat)
    (hfail : ∀ j, 1 ≤ j → j ≤ m → ∃ e, fetch j = .error e) :
    ∀ n k lastErr, k + n = m + 1 → 1 ≤ n → 1 ≤ k →
      ∃ e, fetch m = .error e ∧
        (retryGoList fetch m (List.range' k n) lastErr).result =
          .error ("failed after " ++ toString m ++ " attempts: " ++ e) ∧
        (retryGoList fetch m (List.range' k n) lastErr).attemptsMade = m := by
  intro n
  induction n with
  | zero => intro k lastErr _ h1 _; exact absurd h1 (by decide)
  | succ n ih =>
    intro k lastErr hkn _ hk1
    rw [List.range'_succ]
    obtain ⟨e, he⟩ := hfail k hk1 (by omega)
    cases n with
    | zero =>
      have hkm : k = m := by omega
      subst hkm
      rw [show List.range' (k + 1) 0 = [] from rfl, retryGoList_cons_error_last he]
      exact ⟨e, he, rfl, rfl⟩
    | succ n' =>
      have hne : (List.range' (k + 1) (n' + 1)).isEmpty = false := by
        rw [List.range'_succ]; rfl
      rw [retryGoList_cons_error he hne]
      exact ih (k + 1) (some e) (by omega) (by omega) (by omega)

/-- The retry loop inspects only whether each attempt succeeded, never
the error's retryable/non-retryable content: two fetchers whose attempts
succeed in the same positions produce the same attempt count and the
same backoff schedule. -/
theorem retryGoList_uniform (fetch fetch' : Nat → Except String R) (m : Nat)
    (hsame : ∀ j, excIsOk (fetch j) = excIsOk (fetch' j)) :
    ∀ (l : List Nat) (lastErr lastErr' : Option String),
      (retryGoList fetch m l lastErr).attemptsMade =
        (retryGoList fetch' m l lastErr').attemptsMade ∧
      (retryGoList fetch m l lastErr).delays =
        (retryGoList fetch' m l lastErr').delays := by
  intro l
  induction l with
  | nil => intro lastErr lastErr'; exact ⟨rfl, rfl⟩
  | cons attempt rest ih =>
    intro lastErr lastErr'
    have h' := hsame attempt
    cases hf : fetch attempt with
    | ok r =>
      rw [hf] at h'
      cases hf' : fetch' attempt with
      | ok r' =>
        rw [retryGoList_cons_ok hf, retryGoList_cons_ok hf']
        exact ⟨rfl, rfl⟩
      | error e' => rw [hf'] at h'; simp [excIsOk] at h'
    | error e =>
      rw [hf] at h'
      cases hf' : fetch' attempt with
      | ok r' => rw [hf'] at h'; simp [excIsOk] at h'
      | error e' =>
        cases hrest : rest.isEmpty with
        | true =>
          have hnil : rest = [] := by
            cases rest with
            | nil => rfl
            | cons x xs => simp [List.isEmpty] at hrest
          subst hnil
          rw [retryGoList_cons_error_last hf, retryGoList_cons_error_last hf']
          exact ⟨rfl, rfl⟩
        | false =>
          rw [retryGoList_cons_error hf hrest, retryGoList_cons_error hf' hrest]
          obtain ⟨h1, h2⟩ := ih (some e) (some e')
          exact ⟨h1, by simp only; rw [h2]⟩

/-- C2: if the page fetch fails on attempts 1 through `maxAttempts - 1`
and succeeds on attempt `maxAttempts`, `fetchPageWithRetry` returns that
successful response after exactly `maxAttempts` attempts; if every one of
the `maxAttempts` attempts fails, it performs exactly `maxAttempts`
attempts and returns an error naming the attempt count and wrapping the
last underlying error; and the retry behaviour ignores the
retryable/non-retryable classification: fetchers failing in the same
positions are retried identically. -/
theorem c2_retry_bound (fetch fetch' : Nat → Except String R) (m : Nat) (resp : R) :
    (1 ≤ m → (∀ j, 1 ≤ j → j < m → ∃ e, fetch j = .error e) → fetch m = .ok resp →
      (fetchPageWithRetry fetch m).result = .ok resp ∧
      (fetchPageWithRetry fetch m).attemptsMade = m) ∧
    (1 ≤ m → (∀ j, 1 ≤ j → j ≤ m → ∃ e, fetch j = .error e) →
      ∃ e, fetch m = .error e ∧
        (fetchPageWithRetry fetch m).result =
          .error ("failed after " ++ toString m ++ " attempts: " ++ e) ∧
        (fetchPageWithRetry fetch m).attemptsMade = m) ∧
    ((∀ j, excIsOk (fetch j) = excIsOk (fetch' j)) →
      (fetchPageWithRetry fetch m).attemptsMade =
        (fetchPageWithRetry fetch' m).attemptsMade ∧
      (fetchPageWithRetry fetch m).delays = (fetchPageWithRetry fetch' m).delays) := by
  refine ⟨?_, ?_, ?_⟩
  · intro hm hfail hok
    exact retryGoList_success fetch m m resp hok m 1 none hm (by omega)
      (fun j hj1 hj2 => hfail j hj1 hj2)
  · intro hm hfail
    exact retryGoList_allfail fetch m hfail m 1 none (by omega) hm (by omega)
  · intro hsame
    exact retryGoList_uniform fetch fetch' m hsame (List.range' 1 m) none none

/-- Witness for C2: a fetch failing on attempts 1 and 2 and succeeding
on 3 returns the successful page after 3 attempts; a fetch failing on
all 3 attempts performs exactly 3; and two always-failing fetchers with
different error texts share the attempt count and backoff schedule. -/
theorem c2_retry_bound_witness :
    ((fetchPageWithRetry fetchSeqW 3).result = .ok respW ∧
     (fetchPageWithRetry fetchSeqW 3).attemptsMade = 3) ∧
    (fetchPageWithRetry fetchFailW 3).attemptsMade = 3 ∧
    (fetchPageWithRetry fetchFailW 3).delays = (fetchPageWithRetry fetchFail2W 3).delays := by
  refine ⟨?_, ?_, ?_⟩
  · exact (c2_retry_bound fetchSeqW fetchSeqW 3 respW).1 (by decide)
      (fun j h1 h2 => ⟨"boom " ++ toString j, by interval_cases j <;> rfl⟩) rfl
  · obtain ⟨e, _, _, ha⟩ := (c2_retry_bound fetchFailW fetchFailW 3 respW).2.1 (by decide)
      (fun j _ _ => ⟨"boom " ++ toString j, rfl⟩)
    exact ha
  · exact ((c2_retry_bound fetchFailW fetchFail2W 3 respW).2.2 (fun j => rfl)).2

/-- Counterexample to C3 as stated: the claim's enumerated schedule
"1s, 2s, 4s, …" fails on the code. With every attempt failing and
`maxAttempts = 3`, the delays slept are 2 and 4 seconds
(`1<<attempt` with `attempt` starting at 1), not 1 and 2. -/
theorem c3_backoff_counterexample :
    (fetchPageWithRetry fetchFailW 3).delays = [2, 4] ∧
    (fetchPageWithRetry fetchFailW 3).delays ≠ [1, 2] := by
  constructor <;> decide

/-- C3 as amended: in `fetchPageWithRetry` the delay inserted before
attempt `k+1` is `2^k` seconds for every `k` from 1 up to the attempt
before the exit attempt, with no jitter and no cap — so the schedule is
2s, 4s, 8s, …, not 1s, 2s, 4s. -/
theorem c3_backoff_schedule_amended (fetch : Nat → Except String R)
    (maxAttempts : Nat) (h : 1 ≤ maxAttempts) :
    1 ≤ (fetchPageWithRetry fetch maxAttempts).attemptsMade ∧
    (fetchPageWithRetry fetch maxAttempts).delays =
      (List.range' 1 ((fetchPageWithRetry fetch maxAttempts).attemptsMade - 1)).map
        (fun k => 2 ^ k) :=
  retryGoList_delays fetch maxAttempts maxAttempts 1 none (by omega) h

/-- Witness for the amended C3: with every attempt failing and
`maxAttempts = 3`, the slept delays are exactly `2^1` and `2^2` seconds. -/
theorem c3_backoff_schedule_amended_witness :
    1 ≤ (fetchPageWithRetry fetchFailW 3).attemptsMade ∧
    (fetchPageWithRetry fetchFailW 3).delays =
      (List.range' 1 ((fetchPageWithRetry fetchFailW 3).attemptsMade - 1)).map
        (fun k => 2 ^ k) :=
  c3_backoff_schedule_amended fetchFailW 3 (by decide)

/-- Point lookup after an upsert: the inserted key maps to the new
value, every other key is untouched. -/
theorem bucketGet_insert (b : Bucket) (k v : String) :
    ∀ k', bucketGet (bucketInsert b k v) k' = if k = k' then some v else bucketGet b k' := by
  induction b with
  | nil => intro k'; simp [bucketInsert, bucketGet]
  | cons p rest ih =>
    intro k'
    obtain ⟨k0, v0⟩ := p
    simp only [bucketInsert]
    by_cases h0 : k0 = k
    · subst h0
      simp only [if_pos rfl, bucketGet]
      by_cases hk : k0 = k' <;> simp [hk]
    · simp only [if_neg h0, bucketGet]
      by_cases hk : k0 = k'
      · have : ¬ k = k' := fun h => h0 (h ▸ hk)
        simp [hk, this]
      · simp [hk, ih k']

/-- The keys after an upsert: unchanged when the key was present,
extended by the new key otherwise. -/
theorem bucketInsert_keys (b : Bucket) (k v : String) :
    (bucketInsert b k v).map Prod.fst =
      if k ∈ b.map Prod.fst then b.map Prod.fst else b.map Prod.fst ++ [k] := by
  induction b with
  | nil => simp [bucketInsert]
  | cons p rest ih =>
    obtain ⟨k0, v0⟩ := p
    simp only [bucketInsert]
    by_cases h0 : k0 = k
    · subst h0; simp
    · simp only [if_neg h0, List.map_cons]
      rw [ih]
      by_cases hk : k ∈ rest.map Prod.fst
      · rw [if_pos hk, if_pos (by simp [hk])]
      · have hnot : ¬ k ∈ (k0, v0).1 :: rest.map Prod.fst := by
          intro hcon
          rcases List.mem_cons.mp hcon with h1 | h2
          · exact h0 h1.symm
          · exact hk h2
        rw [if_neg hk, if_neg hnot]
        simp

/-- Upserting preserves key uniqueness within a bucket. -/
theorem bucketInsert_nodup (b : Bucket) (k v : String)
    (h : (b.map Prod.fst).Nodup) : ((bucketInsert b k v).map Prod.fst).Nodup := by
  rw [bucketInsert_keys]
  by_cases hk : k ∈ b.map Prod.fst
  · simpa [hk]
  · rw [if_neg hk, List.nodup_append]
    refine ⟨h, List.nodup_singleton k, ?_⟩
    intro a ha hb
    simp at hb
    subst hb
    exact hk ha

/-- A successful point lookup means the key is among the bucket's keys. -/
theorem bucketGet_mem_keys {b : Bucket} {k v : String}
    (h : bucketGet b k = some v) : k ∈ b.map Prod.fst := by
  induction b with
  | nil => simp [bucketGet] at h
  | cons p rest ih =>
    obtain ⟨k0, v0⟩ := p
    simp only [bucketGet] at h
    by_cases h0 : k0 = k
    · subst h0; simp
    · rw [if_neg h0] at h
      exact List.mem_cons_of_mem _ (ih h)

/-- An upsert never appends when the key is already present, and adds
exactly one entry otherwise. -/
theorem bucketInsert_length (b : Bucket) (k v : String) :
    (bucketInsert b k v).length =
      if k ∈ b.map Prod.fst then b.length else b.length + 1 := by
  have hlen : (bucketInsert b k v).length = ((bucketInsert b k v).map Prod.fst).length := by
    simp
  rw [hlen, bucketInsert_keys]
  by_cases hk : k ∈ b.map Prod.fst <;> simp [hk]

/-- If some entity of the batch has an empty SKU or fails to marshal,
the transaction closure returns an error. -/
theorem saveEntitiesLoop_error (getSKU : T → String) (transformer : T → E)
    (marshal : E → Except String String) :
    ∀ (entities : List T) (b : Bucket),
      (∃ e ∈ entities, getSKU e = "" ∨ excIsOk (marshal (transformer e)) = false) →
      ∃ msg, saveEntitiesLoop getSKU transformer marshal entities b = .error msg := by
  intro entities
  induction entities with
  | nil => intro b h; simp at h
  | cons e rest ih =>
    intro b h
    simp only [saveEntitiesLoop]
    cases hm : marshal (transformer e) with
    | error err => exact ⟨_, rfl⟩
    | ok data =>
      by_cases hs : getSKU e = ""
      · simp only [bucketPut, if_pos hs]
        exact ⟨_, rfl⟩
      · simp only [bucketPut, if_neg hs]
        obtain ⟨e', he', hfail⟩ := h
        rcases List.mem_cons.mp he' with h1 | h2
        · subst h1
          rcases hfail with h3 | h3
          · exact absurd h3 hs
          · rw [hm] at h3; simp [excIsOk] at h3
        · exact ih (bucketInsert b (getSKU e) data) ⟨e', h2, hfail⟩

/-- If every entity of the batch has a non-empty SKU and marshals
successfully, the transaction closure succeeds, and the resulting bucket
holds, under each key, the marshalled transform of the last batch entity
with that SKU, leaving every other key untouched. -/
theorem saveEntitiesLoop_ok (getSKU : T → String) (transformer : T → E)
    (marshal : E → Except String String) :
    ∀ (entities : List T) (b : Bucket),
      (∀ e ∈ entities, getSKU e ≠ "" ∧ excIsOk (marshal (transformer e)) = true) →
      ∃ b2, saveEntitiesLoop getSKU transformer marshal entities b = .ok b2 ∧
        ∀ sku, bucketGet b2 sku =
          (match lastWithSKU getSKU entities sku with
           | some e => excToOption (marshal (transformer e))
           | none => bucketGet b sku) := by
  intro entities
  induction entities with
  | nil =>
    intro b _
    exact ⟨b, rfl, fun sku => by simp [lastWithSKU]⟩
  | cons e rest ih =>
    intro b h
    obtain ⟨hs, hok⟩ := h e (List.mem_cons_self e rest)
    cases hm : marshal (transformer e) with
    | error err => rw [hm] at hok; simp [excIsOk] at hok
    | ok data =>
      obtain ⟨b2, hb2, hspec⟩ := ih (bucketInsert b (getSKU e) data)
        (fun e' he' => h e' (List.mem_cons_of_mem _ he'))
      refine ⟨b2, ?_, ?_⟩
      · simp only [saveEntitiesLoop, hm, bucketPut, if_neg hs]
        exact hb2
      · intro sku
        rw [hspec sku]
        simp only [lastWithSKU]
        cases lastWithSKU getSKU rest sku with
        | some e' => rfl
        | none =>
          simp only [bucketGet_insert]
          by_cases hsku : getSKU e = sku
          · simp [hsku, hm, excToOption]
          · simp [hsku]

/-- C5: `saveEntitiesToDatabase` persists a page's entities in one
transaction, writing each transformed, marshalled entity keyed by its
SKU (a later duplicate SKU in the batch overwriting an earlier one, and
other keys untouched); if any single entity fails to marshal or to
write, the transaction aborts with an error and the entire store is
unchanged. -/
theorem c5_write_batch_atomicity (getSKU : T → String) (transformer : T → E)
    (marshal : E → Except String String) (st : Store) (bucketName : String)
    (entities : List T) :
    ((∃ e ∈ entities, getSKU e = "" ∨ excIsOk (marshal (transformer e)) = false) →
      excIsOk (saveEntitiesToDatabase getSKU transformer marshal st bucketName entities).1 = false ∧
      (saveEntitiesToDatabase getSKU transformer marshal st bucketName entities).2 = st) ∧
    ((∀ e ∈ entities, getSKU e ≠ "" ∧ excIsOk (marshal (transformer e)) = true) →
      (saveEntitiesToDatabase getSKU transformer marshal st bucketName entities).1 = .ok () ∧
      (∀ sku, bucketGet
          ((saveEntitiesToDatabase getSKU transformer marshal st bucketName entities).2 bucketName) sku =
        (match lastWithSKU getSKU entities sku with
         | some e => excToOption (marshal (transformer e))
         | none => bucketGet (st bucketName) sku)) ∧
      (∀ name, name ≠ bucketName →
        (saveEntitiesToDatabase getSKU transformer marshal st bucketName entities).2 name = st name)) := by
  constructor
  · intro hfail
    obtain ⟨msg, hmsg⟩ := saveEntitiesLoop_error getSKU transformer marshal entities
      (st bucketName) hfail
    simp [saveEntitiesToDatabase, hmsg, excIsOk]
  · intro hok
    obtain ⟨b2, hb2, hspec⟩ := saveEntitiesLoop_ok getSKU transformer marshal entities
      (st bucketName) hok
    refine ⟨?_, ?_, ?_⟩
    · simp [saveEntitiesToDatabase, hb2]
    · intro sku
      simp only [saveEntitiesToDatabase, hb2, storeSet, if_pos rfl]
      exact hspec sku
    · intro name hname
      simp [saveEntitiesToDatabase, hb2, storeSet, hname]

/-- Witness for C5: a batch containing an empty-SKU entity aborts and
leaves the store unchanged, while a well-formed two-entity batch
succeeds and stores both marshalled payloads under their SKUs. -/
theorem c5_write_batch_atomicity_witness :
    (excIsOk (saveEntitiesToDatabase id id marshalW stW "products" ["x", ""]).1 = false ∧
     (saveEntitiesToDatabase id id marshalW stW "products" ["x", ""]).2 = stW) ∧
    ((saveEntitiesToDatabase id id marshalW stW "products" ["a", "b"]).1 = .ok () ∧
     bucketGet ((saveEntitiesToDatabase id id marshalW stW "products" ["a", "b"]).2 "products") "a" =
       some "a") := by
  constructor
  · exact (c5_write_batch_atomicity id id marshalW stW "products" ["x", ""]).1
      ⟨"", by decide, Or.inl rfl⟩
  · constructor
    · exact ((c5_write_batch_atomicity id id marshalW stW "products" ["a", "b"]).2
        (by intro e he; refine ⟨?_, rfl⟩; rcases List.mem_cons.mp he with h | h
            · subst h; decide
            · simp at h; subst h; decide)).1
    · have := ((c5_write_batch_atomicity id id marshalW stW "products" ["a", "b"]).2
        (by intro e he; refine ⟨?_, rfl⟩; rcases List.mem_cons.mp he with h | h
            · subst h; decide
            · simp at h; subst h; decide)).2.1 "a"
      rw [this]
      rfl

/-- One-entity batch: the transaction reduces to a single upsert. -/
theorem saveOne_eq (getSKU : T → String) (transformer : T → E)
    (marshal : E → Except String String) (st : Store) (bucketName : String)
    (e : T) (d : String)
    (hm : marshal (transformer e) = .ok d) (hs : getSKU e ≠ "") :
    saveEntitiesToDatabase getSKU transformer marshal st bucketName [e] =
      (.ok (), storeSet st bucketName (bucketInsert (st bucketName) (getSKU e) d)) := by
  simp [saveEntitiesToDatabase, saveEntitiesLoop, hm, bucketPut, hs]

/-- The upserted key is always among the resulting keys. -/
theorem bucketInsert_mem_keys (b : Bucket) (k v : String) :
    k ∈ (bucketInsert b k v).map Prod.fst := by
  rw [bucketInsert_keys]
  by_cases hk : k ∈ b.map Prod.fst <;> simp [hk]

/-- C6: persisting the same wire entity twice leaves exactly one stored
record under its SKU, equal to the (identical) transform output of the
second persistence; persisting a different entity with the same SKU
overwrites the prior value in place, so key uniqueness is preserved and
the collection never grows by re-writing an existing SKU. -/
theorem c6_upsert_idempotence (getSKU : T → String) (transformer : T → E)
    (marshal : E → Except String String) (st : Store) (bucketName : String)
    (e1 e2 : T) (d1 d2 : String)
    (hnd : ((st bucketName).map Prod.fst).Nodup)
    (hsku : getSKU e1 ≠ "")
    (hsku2 : getSKU e2 = getSKU e1)
    (hm1 : marshal (transformer e1) = .ok d1)
    (hm2 : marshal (transformer e2) = .ok d2) :
    (saveEntitiesToDatabase getSKU transformer marshal st bucketName [e1]).1 = .ok () ∧
    bucketGet ((saveEntitiesToDatabase getSKU transformer marshal
        (saveEntitiesToDatabase getSKU transformer marshal st bucketName [e1]).2
        bucketName [e1]).2 bucketName) (getSKU e1) = some d1 ∧
    (((saveEntitiesToDatabase getSKU transformer marshal
        (saveEntitiesToDatabase getSKU transformer marshal st bucketName [e1]).2
        bucketName [e1]).2 bucketName).map Prod.fst).count (getSKU e1) = 1 ∧
    ((saveEntitiesToDatabase getSKU transformer marshal
        (saveEntitiesToDatabase getSKU transformer marshal st bucketName [e1]).2
        bucketName [e1]).2 bucketName).length =
      ((saveEntitiesToDatabase getSKU transformer marshal st bucketName [e1]).2 bucketName).length ∧
    bucketGet ((saveEntitiesToDatabase getSKU transformer marshal
        (saveEntitiesToDatabase getSKU transformer marshal st bucketName [e1]).2
        bucketName [e2]).2 bucketName) (getSKU e1) = some d2 ∧
    ((saveEntitiesToDatabase getSKU transformer marshal
        (saveEntitiesToDatabase getSKU transformer marshal st bucketName [e1]).2
        bucketName [e2]).2 bucketName).length =
      ((saveEntitiesToDatabase getSKU transformer marshal st bucketName [e1]).2 bucketName).length := by
  have hsku2' : getSKU e2 ≠ "" := by rw [hsku2]; exact hsku
  rw [saveOne_eq getSKU transformer marshal st bucketName e1 d1 hm1 hsku]
  have hst1 : (storeSet st bucketName (bucketInsert (st bucketName) (getSKU e1) d1)) bucketName =
      bucketInsert (st bucketName) (getSKU e1) d1 := by
    simp [storeSet]
  refine ⟨rfl, ?_⟩
  rw [saveOne_eq getSKU transformer marshal _ bucketName e1 d1 hm1 hsku,
      saveOne_eq getSKU transformer marshal _ bucketName e2 d2 hm2 hsku2']
  simp only [storeSet, if_true, eq_self_iff_true]
  set b1 := bucketInsert (st bucketName) (getSKU e1) d1 with hb1
  have hmem : getSKU e1 ∈ b1.map Prod.fst := bucketInsert_mem_keys _ _ _
  have hnd1 : (b1.map Prod.fst).Nodup := bucketInsert_nodup _ _ _ hnd
  refine ⟨?_, ?_, ?_, ?_, ?_⟩
  · rw [bucketGet_insert]
    simp
  · have hkeys : (bucketInsert b1 (getSKU e1) d1).map Prod.fst = b1.map Prod.fst := by
      rw [bucketInsert_keys, if_pos hmem]
    rw [hkeys]
    exact List.count_eq_one_of_mem hnd1 hmem
  · rw [bucketInsert_length, if_pos hmem]
  · rw [hsku2, bucketGet_insert]
    simp
  · rw [hsku2, bucketInsert_length, if_pos hmem]

/-- Witness for C6 at concrete keyed entities: writing ("a","v1") twice
keeps one record "v1" under "a"; overwriting with ("a","v2") stores "v2"
without growing the bucket. -/
theorem c6_upsert_idempotence_witness :
    (saveEntitiesToDatabase Prod.fst id marshalPairW stW "products" [("a", "v1")]).1 = .ok () ∧
    bucketGet ((saveEntitiesToDatabase Prod.fst id marshalPairW
        (saveEntitiesToDatabase Prod.fst id marshalPairW stW "products" [("a", "v1")]).2
        "products" [("a", "v1")]).2 "products") (Prod.fst ("a", "v1")) = some "v1" ∧
    (((saveEntitiesToDatabase Prod.fst id marshalPairW
        (saveEntitiesToDatabase Prod.fst id marshalPairW stW "products" [("a", "v1")]).2
        "products" [("a", "v1")]).2 "products").map Prod.fst).count (Prod.fst ("a", "v1")) = 1 ∧
    ((saveEntitiesToDatabase Prod.fst id marshalPairW
        (saveEntitiesToDatabase Prod.fst id marshalPairW stW "products" [("a", "v1")]).2
        "products" [("a", "v1")]).2 "products").length =
      ((saveEntitiesToDatabase Prod.fst id marshalPairW stW "products" [("a", "v1")]).2 "products").length ∧
    bucketGet ((saveEntitiesToDatabase Prod.fst id marshalPairW
        (saveEntitiesToDatabase Prod.fst id marshalPairW stW "products" [("a", "v1")]).2
        "products" [("a", "v2")]).2 "products") (Prod.fst ("a", "v1")) = some "v2" ∧
    ((saveEntitiesToDatabase Prod.fst id marshalPairW
        (saveEntitiesToDatabase Prod.fst id marshalPairW stW "products" [("a", "v1")]).2
        "products" [("a", "v2")]).2 "products").length =
      ((saveEntitiesToDatabase Prod.fst id marshalPairW stW "products" [("a", "v1")]).2 "products").length :=
  c6_upsert_idempotence Prod.fst id marshalPairW stW "products"
    ("a", "v1") ("a", "v2") "v1" "v2" (by decide) (by decide) rfl rfl rfl

/-- The winning batch entity for a key is a member of the batch and
carries that key. -/
theorem lastWithSKU_mem {getSKU : T → String} :
    ∀ {l : List T} {sku : String} {e : T},
      lastWithSKU getSKU l sku = some e → e ∈ l ∧ getSKU e = sku := by
  intro l
  induction l with
  | nil => intro sku e h; simp [lastWithSKU] at h
  | cons x xs ih =>
    intro sku e h
    simp only [lastWithSKU] at h
    cases hrec : lastWithSKU getSKU xs sku with
    | some e' =>
      rw [hrec] at h
      injection h with h
      subst h
      obtain ⟨h1, h2⟩ := ih hrec
      exact ⟨List.mem_cons_of_mem _ h1, h2⟩
    | none =>
      rw [hrec] at h
      by_cases hx : getSKU x = sku
      · rw [if_pos hx] at h
        injection h with h
        subst h
        exact ⟨List.mem_cons_self _ _, hx⟩
      · rw [if_neg hx] at h
        exact absurd h (by simp)

/-- C7: when the JSON codec inverts (`unmarshal` recovers what `marshal`
produced) and the transform preserves the SKU — as both concrete
transforms do — any storage entity written by a successful `writeBatch`
(as the last batch entry with its SKU) is returned deep-equal by a
subsequent `GetEntity` on that collection under its identifier. -/
theorem c7_round_trip (getSKU_T : T → String) (getSKU_E : E → String)
    (transformer : T → E) (marshal : E → Except String String)
    (unmarshal : String → Except String E)
    (st : Store) (bucketName : String) (entities : List T) (w : T)
    (hround : ∀ (x : E) (d : String), marshal x = .ok d → unmarshal d = .ok x)
    (hskupres : getSKU_E (transformer w) = getSKU_T w)
    (hlast : lastWithSKU getSKU_T entities (getSKU_T w) = some w)
    (hok : ∀ e ∈ entities, getSKU_T e ≠ "" ∧ excIsOk (marshal (transformer e)) = true) :
    GetEntity unmarshal
      (saveEntitiesToDatabase getSKU_T transformer marshal st bucketName entities).2
      bucketName (getSKU_E (transformer w)) = .ok (transformer w) := by
  obtain ⟨b2, hb2, hspec⟩ := saveEntitiesLoop_ok getSKU_T transformer marshal entities
    (st bucketName) hok
  obtain ⟨hwmem, _⟩ := lastWithSKU_mem hlast
  obtain ⟨_, hwok⟩ := hok w hwmem
  cases hm : marshal (transformer w) with
  | error err => rw [hm] at hwok; simp [excIsOk] at hwok
  | ok d =>
    have hget : bucketGet b2 (getSKU_T w) = some d := by
      rw [hspec (getSKU_T w), hlast]
      show excToOption (marshal (transformer w)) = some d
      rw [hm]
      rfl
    have hstore : (saveEntitiesToDatabase getSKU_T transformer marshal st bucketName
        entities).2 bucketName = b2 := by
      simp [saveEntitiesToDatabase, hb2, storeSet]
    rw [hskupres]
    unfold GetEntity
    rw [hstore, hget]
    exact hround (transformer w) d hm

/-- Witness for C7: a one-entity batch over string entities with the
identity codec round-trips through `GetEntity`. -/
theorem c7_round_trip_witness :
    GetEntity unmarshalW
      (saveEntitiesToDatabase id id marshalW stW "products" ["a"]).2
      "products" (id (id "a")) = .ok (id "a") :=
  c7_round_trip id id id marshalW unmarshalW stW "products" ["a"] "a"
    (by intro x d h; cases h; rfl) rfl (by decide) (by decide)

/-- If no link carries the relation, the scan finds nothing. -/
theorem lastHrefWithRel_none {rel0 : String} {links : List Link}
    (h : ∀ l ∈ links, strLower l.rel ≠ rel0) : lastHrefWithRel rel0 links = none := by
  induction links with
  | nil => rfl
  | cons x xs ih =>
    simp only [lastHrefWithRel]
    rw [ih (fun l hl => h l (List.mem_cons_of_mem _ hl)),
        if_neg (h x (List.mem_cons_self _ _))]

/-- A first-attempt success passes straight through the retry wrapper
with the source's `maxRetries = 3`. -/
theorem fetchPageWithRetry_first_ok (f : Nat → Except String R) (r : R)
    (hf : f 1 = .ok r) : (fetchPageWithRetry f 3).result = .ok r := by
  have h3 : List.range' 1 3 = [1, 2, 3] := rfl
  rw [fetchPageWithRetry, h3, retryGoList_cons_ok hf]

/-- The page loop of `FetchAllEntities`: when every first fetch attempt
succeeds, every batch save succeeds, and `isLastPage` holds exactly at
page `final`, the loop started at page `p ≤ final` with enough fuel
fetches exactly the pages `p, p+1, …, final`. -/
theorem fetchAllLoop_spec (getSKU : T → String) (transformer : T → E)
    (marshal : E → Except String String)
    (attempts : Nat → Nat → Except String (GenericAPIResponse T))
    (bucketName : String) (pages : Nat → GenericAPIResponse T) (final : Nat)
    (hfetch : ∀ p, attempts p 1 = .ok (pages p))
    (hsave : ∀ (p : Nat) (st : Store), ∃ st2,
      saveEntitiesToDatabase getSKU transformer marshal st bucketName
        (pages p).entities = (.ok (), st2))
    (hlast : ∀ k, 1 ≤ k → (isLastPage (pages k).links = true ↔ k = final)) :
    ∀ (fuel p : Nat) (st : Store) (total : Nat),
      1 ≤ p → p ≤ final → final + 1 ≤ fuel + p →
      ∃ st2 t2, fetchAllLoop getSKU transformer marshal attempts bucketName
        fuel st p total = some (.ok (st2, t2, List.range' p (final + 1 - p))) := by
  intro fuel
  induction fuel with
  | zero => intro p st total h1 h2 h3; omega
  | succ fuel ih =>
    intro p st total h1 h2 h3
    obtain ⟨st2, hst2⟩ := hsave p st
    have hres : (fetchPageWithRetry (attempts p) 3).result = .ok (pages p) :=
      fetchPageWithRetry_first_ok (attempts p) (pages p) (hfetch p)
    simp only [fetchAllLoop, hres, hst2]
    cases hb : isLastPage (pages p).links with
    | true =>
      have hp : p = final := (hlast p h1).mp hb
      subst hp
      have hone : p + 1 - p = 1 := by omega
      rw [hone]
      refine ⟨st2, total + (pages p).entities.length, ?_⟩
      rw [if_pos rfl, List.range'_one]
    | false =>
      have hp : p ≠ final := by
        intro hc
        rw [(hlast p h1).mpr hc] at hb
        exact absurd hb (by simp)
      obtain ⟨st3, t3, hrec⟩ := ih (p + 1) st2 (total + (pages p).entities.length)
        (by omega) (by omega) (by omega)
      refine ⟨st3, t3, ?_⟩
      rw [if_neg (by simp), hrec]
      have hsucc : final + 1 - p = (final - p) + 1 := by omega
      rw [hsucc, List.range'_succ]
      simp [Except.map, Nat.succ_sub_succ]

/-- C1: the sync loop stops after a page exactly when that page's links
contain a (case-insensitive) `self` link and a `last` link with
non-empty, equal hrefs (uniqueness of each relation makes "the" link
well-defined; an absent `href` decodes to the Go zero value `""`); if
either link is missing the page is not last, so the loop advances; and
for a synthetic source whose `self` and `last` hrefs coincide exactly at
page `final`, `FetchAllEntities` fetches exactly the pages
`1, 2, …, final` — `final` page fetches in all. -/
theorem c1_pagination_termination :
    (∀ links : List Link,
      (∀ l1 ∈ links, ∀ l2 ∈ links,
        strLower l1.rel = "self" → strLower l2.rel = "self" → l1 = l2) →
      (∀ l1 ∈ links, ∀ l2 ∈ links,
        strLower l1.rel = "last" → strLower l2.rel = "last" → l1 = l2) →
      (isLastPage links = true ↔
        ∃ ls ∈ links, ∃ ll ∈ links, strLower ls.rel = "self" ∧
          strLower ll.rel = "last" ∧ ls.href ≠ "" ∧ ls.href = ll.href)) ∧
    (∀ links : List Link,
      ((∀ l ∈ links, strLower l.rel ≠ "self") ∨ (∀ l ∈ links, strLower l.rel ≠ "last")) →
      isLastPage links = false) ∧
    (∀ (T E : Type) (getSKU : T → String) (transformer : T → E)
      (marshal : E → Except String String)
      (attempts : Nat → Nat → Except String (GenericAPIResponse T))
      (bucketName : String) (pages : Nat → GenericAPIResponse T)
      (final fuel : Nat) (st : Store),
      (∀ p, attempts p 1 = .ok (pages p)) →
      (∀ (p : Nat) (st' : Store), ∃ st2,
        saveEntitiesToDatabase getSKU transformer marshal st' bucketName
          (pages p).entities = (.ok (), st2)) →
      (∀ k, 1 ≤ k → (isLastPage (pages k).links = true ↔ k = final)) →
      1 ≤ final → final ≤ fuel →
      syncPages (FetchAllEntities getSKU transformer marshal attempts bucketName fuel st) =
        some (List.range' 1 final) ∧
      (List.range' 1 final).length = final) := by
  refine ⟨?_, ?_, ?_⟩
  · intro links hus hul
    constructor
    · intro hT
      rcases hS : lastHrefWithRel "self" links with _ | s
      · have : isLastPage links = false := by simp [isLastPage, linkScan_eq, hS]
        rw [this] at hT
        exact absurd hT (by simp)
      · rcases hL : lastHrefWithRel "last" links with _ | t
        · have : isLastPage links = false := by simp [isLastPage, linkScan_eq, hL]
          rw [this] at hT
          exact absurd hT (by simp)
        · have hchar : isLastPage links = true ↔ (s ≠ "" ∧ t ≠ "" ∧ s = t) := by
            simp [isLastPage, linkScan_eq, hS, hL, Bool.and_eq_true, bne_iff_ne,
              beq_iff_eq, and_assoc]
          obtain ⟨hs, ht, heq⟩ := hchar.mp hT
          obtain ⟨ls, hlsmem, hlsrel, hlshref⟩ := lastHrefWithRel_mem hS
          obtain ⟨ll, hllmem, hllrel, hllhref⟩ := lastHrefWithRel_mem hL
          exact ⟨ls, hlsmem, ll, hllmem, hlsrel, hllrel,
            by rw [hlshref]; exact hs, by rw [hlshref, hllhref, heq]⟩
    · rintro ⟨ls, hlsmem, ll, hllmem, hlsrel, hllrel, hne, heq⟩
      have hS : lastHrefWithRel "self" links = some ls.href :=
        lastHrefWithRel_unique hlsmem hlsrel
          (fun l' hl' hr' => hus l' hl' ls hlsmem hr' hlsrel)
      have hL : lastHrefWithRel "last" links = some ll.href :=
        lastHrefWithRel_unique hllmem hllrel
          (fun l' hl' hr' => hul l' hl' ll hllmem hr' hllrel)
      have hlne : ll.href ≠ "" := heq ▸ hne
      simp only [isLastPage, linkScan_eq, hS, hL, Option.getD_some]
      simp [hne, hlne, heq]
  · intro links h
    rcases h with h | h
    · simp [isLastPage, linkScan_eq, lastHrefWithRel_none h]
    · simp [isLastPage, linkScan_eq, lastHrefWithRel_none h]
  · intro T E getSKU transformer marshal attempts bucketName pages final fuel st
      hfetch hsave hlast hfinal hfuel
    obtain ⟨st2, t2, hloop⟩ := fetchAllLoop_spec getSKU transformer marshal attempts
      bucketName pages final hfetch hsave hlast fuel 1 st 0 le_rfl hfinal (by omega)
    have hsub : final + 1 - 1 = final := by omega
    rw [hsub] at hloop
    constructor
    · rw [FetchAllEntities, hloop]
      rfl
    · simp

/-- Witness for C1: a links list with no `self`/`last` relation is never
a last page, and the synthetic two-page source `pagesW` (whose `self`
and `last` hrefs coincide exactly on page 2) makes `FetchAllEntities`
fetch exactly pages 1 and 2. -/
theorem c1_pagination_termination_witness :
    isLastPage [⟨"other", "x"⟩] = false ∧
    syncPages (FetchAllEntities id id marshalW attemptsW "products" 2 stW) =
      some (List.range' 1 2) ∧
    (List.range' 1 2).length = 2 := by
  refine ⟨?_, ?_⟩
  · exact c1_pagination_termination.2.1 [⟨"other", "x"⟩] (Or.inl (by decide))
  · exact c1_pagination_termination.2.2 String String id id marshalW attemptsW
      "products" pagesW 2 2 stW
      (fun p => rfl)
      (fun p st' => by
        by_cases hp : p = 2
        · subst hp
          exact ⟨_, saveOne_eq id id marshalW st' "products" "b" "b" rfl (by decide)⟩
        · have hpk : pagesW p = ⟨[⟨"self", "p1"⟩, ⟨"last", "p2"⟩], {}, ["a"]⟩ := by
            simp [pagesW, hp]
          rw [hpk]
          exact ⟨_, saveOne_eq id id marshalW st' "products" "a" "a" rfl (by decide)⟩)
      (fun k hk => by
        by_cases h : k = 2
        · subst h; decide
        · have hpk : pagesW k = ⟨[⟨"self", "p1"⟩, ⟨"last", "p2"⟩], {}, ["a"]⟩ := by
            simp [pagesW, h]
          rw [hpk]
          have hfalse : isLastPage [⟨"self", "p1"⟩, ⟨"last", "p2"⟩] = false := by decide
          simp [hfalse, h])
      (by decide) (by decide)

end AshleyDB
